import Mathlib

/-
Verification of the background task / cancellation facility of FPSPACK-Panel
(src/core/thread_manager.py).  The definitions below are a shallow embedding
of the Python source: pure data records become structures, the mutable state
of the ThreadManager (task counter, executor shutdown bit, the two registry
dictionaries) becomes an explicit state record threaded through operations,
and Qt signal emissions become lists of Event values.  Fallible Python code
is modelled with Except.
-/

set_option maxHeartbeats 1000000

/-- Terminal result record for a task, mirroring class TaskResult
(thread_manager.py lines 16-23).  The wall-clock timestamp field is not
modelled; the opaque success payload is modelled as an Int. -/
structure TaskResult where
  task_id : String
  success : Bool
  result : Option Int
  error : Option String
deriving DecidableEq

/-- One Qt signal emission observable from the facility: progress_updated /
task_progress, status_updated / task_status, and task_completed. -/
inductive Event where
  | progress (task_id : String) (p : Int)
  | status (task_id : String) (s : String)
  | completed (r : TaskResult)
deriving DecidableEq

/-- Mutable state of a WorkerThread relevant to the model: the cooperative
cancellation bit _is_cancelled (thread_manager.py line 38). -/
structure WorkerThread where
  isCancelled : Bool
deriving DecidableEq

/-- Lifecycle state of a concurrent.futures.Future as used by the pooled
lane: PENDING, RUNNING, FINISHED, CANCELLED. -/
inductive FutureState where
  | pending
  | running
  | done
  | cancelledF
deriving DecidableEq

/-- Python Future.done(): true exactly in the FINISHED and CANCELLED
states. -/
def futureDone : FutureState → Bool
  | FutureState.done => true
  | FutureState.cancelledF => true
  | _ => false

/-- Python Future.cancel(): succeeds from PENDING (moving to CANCELLED) and
on an already CANCELLED future; fails on RUNNING and FINISHED futures. -/
def futureCancel : FutureState → Bool
  | FutureState.pending => true
  | FutureState.cancelledF => true
  | _ => false

/-- State of the ThreadManager object (thread_manager.py lines 86-105):
the submission counter _task_counter, the executor shutdown bit of
self.thread_pool, and the two registry dictionaries active_threads and
active_futures (modelled as association lists keyed by task id). -/
structure ThreadManagerState where
  counter : Nat
  poolShutdown : Bool
  activeThreads : List (String × WorkerThread)
  activeFutures : List (String × FutureState)
deriving DecidableEq

/-- WorkerThread._progress_callback (lines 62-65): emits progress_updated
only while the cancellation flag is unset. -/
def progressCallback (task_id : String) (w : WorkerThread) (p : Int) : List Event :=
  if w.isCancelled then [] else [Event.progress task_id p]

/-- WorkerThread._status_callback (lines 67-70): emits status_updated only
while the cancellation flag is unset. -/
def statusCallback (task_id : String) (w : WorkerThread) (s : String) : List Event :=
  if w.isCancelled then [] else [Event.status task_id s]

/-- WorkerThread.cancel (lines 72-75): sets _is_cancelled and then emits a
status_updated event with text "Cancelado".  Returns the updated worker
record together with the events it emits. -/
def workerCancel (task_id : String) (w : WorkerThread) : WorkerThread × List Event :=
  ({ w with isCancelled := true }, [Event.status task_id "Cancelado"])

/-- True when the callable returned normally (did not raise). -/
def isOkB (r : Except String Int) : Bool :=
  match r with
  | Except.ok _ => true
  | Except.error _ => false

/-- WorkerThread.run (lines 40-60).  Parameters: the cancellation flag value
observed at the completion check on line 53, the events the callable emitted
through its injected callbacks while it ran, and the callable outcome (a
normal return value or a raised exception message).  The trace is: the
"Iniciando..." status emit, then the callable's own emissions, then — if the
callable returned and the flag is unset — the TaskResult emission followed
by the "Concluído" status emit; if the callable raised, the Failed
TaskResult and the "Erro: ..." status are emitted unconditionally (lines
57-60 do not consult the flag).  A cancelled run whose callable returned
normally emits no completion event at all (the guard on line 53). -/
def workerRunEvents (task_id : String) (cancelledAtCheck : Bool)
    (funcEmits : List Event) (r : Except String Int) : List Event :=
  Event.status task_id "Iniciando..." ::
    (funcEmits ++
      match r with
      | Except.ok v =>
          if cancelledAtCheck then []
          else [Event.completed ⟨task_id, true, some v, none⟩,
                Event.status task_id "Concluído"]
      | Except.error e =>
          [Event.completed ⟨task_id, false, none, some e⟩,
           Event.status task_id ("Erro: " ++ e)])

/-- ThreadManager._execute_task (lines 156-181), the pooled lane.  It emits
"Executando...", runs the callable (whose own callback emissions are
funcEmits), and then emits exactly one TaskResult — success with the value,
or failure carrying str(e) — followed by a final status emit.  The re-raise
on line 181 lands in the Future and is not part of the observable event
trace. -/
def executeTaskEvents (task_id : String) (funcEmits : List Event)
    (r : Except String Int) : List Event :=
  Event.status task_id "Executando..." ::
    (funcEmits ++
      match r with
      | Except.ok v =>
          [Event.completed ⟨task_id, true, some v, none⟩,
           Event.status task_id "Concluído"]
      | Except.error e =>
          [Event.completed ⟨task_id, false, none, some e⟩,
           Event.status task_id ("Erro: " ++ e)])

/-- Sequential execution of pooled tasks by the executor: each entry is a
task id, the events its callable emits, and its callable outcome.  The
executor's worker loop catches the re-raised exception of a failed task and
moves on to the next one, so every entry contributes its own trace. -/
def runSeq : List (String × List Event × Except String Int) → List Event
  | [] => []
  | (task_id, fe, r) :: rest => executeTaskEvents task_id fe r ++ runSeq rest

/-- Number of task_completed emissions in a trace. -/
def countCompleted (evs : List Event) : Nat :=
  (evs.filter fun e =>
    match e with
    | Event.completed _ => true
    | _ => false).length

/-- TaskResult records carried by the task_completed emissions of a trace,
in emission order. -/
def completedResults (evs : List Event) : List TaskResult :=
  evs.filterMap fun e =>
    match e with
    | Event.completed r => some r
    | _ => none

/-- Values a keyword argument can hold at the point the callable is invoked:
the pool-injected progress callback, the pool-injected status callback, a
hypothetical cancellation-flag handle (never constructed by the source; it
exists in the model only so the specification claim about it can be
stated), or an opaque caller-supplied value. -/
inductive KwVal where
  | progressCb
  | statusCb
  | cancelFlag
  | callerSupplied
deriving DecidableEq

/-- Caller-supplied keyword arguments: every value the caller passes is
opaque to the facility. -/
def callerKwargs (ks : List String) : List (String × KwVal) :=
  ks.map fun k => (k, KwVal.callerSupplied)

/-- First injection step shared by both lanes (lines 46-47 and 162-163):
progress_callback is added to the keyword dictionary when, and only when,
the caller did not already supply it. -/
def injectProgress (kwargs : List (String × KwVal)) : List (String × KwVal) :=
  if (kwargs.lookup "progress_callback").isSome then kwargs
  else kwargs ++ [("progress_callback", KwVal.progressCb)]

/-- Second injection step shared by both lanes (lines 48-49 and 164-165):
status_callback is added when, and only when, absent. -/
def injectStatus (kwargs : List (String × KwVal)) : List (String × KwVal) :=
  if (kwargs.lookup "status_callback").isSome then kwargs
  else kwargs ++ [("status_callback", KwVal.statusCb)]

/-- Callback injection performed identically by both lanes before invoking
the callable (WorkerThread.run lines 46-49 and _execute_task lines 162-165).
Nothing else is added: in particular no cancellation handle is passed to
the work. -/
def injectCallbacks (kwargs : List (String × KwVal)) : List (String × KwVal) :=
  injectStatus (injectProgress kwargs)

/-- Decimal digit characters of n, most significant first, computed with
explicit fuel (the recursion divides by 10).  Mirrors Python str(int). -/
def decDigitsAux : Nat → Nat → List Char
  | 0, _ => []
  | fuel + 1, n =>
      if n = 0 then []
      else decDigitsAux fuel (n / 10) ++ [Nat.digitChar (n % 10)]

/-- Decimal rendering of a natural number, as Python str produces it. -/
def decRepr (n : Nat) : List Char :=
  if n = 0 then ['0'] else decDigitsAux n n

/-- Characters of a generated task id (submit_task lines 123-128):
f-string "task_{counter}_{time}", prefixed by "{task_name}_" when the
caller supplied a non-empty name (Python truthiness of the string). -/
def idChars (name : Option String) (c t : Nat) : List Char :=
  (match name with
   | none => []
   | some nm => if nm.data.isEmpty then [] else nm.data ++ ['_'])
  ++ ('t' :: 'a' :: 's' :: 'k' :: '_' :: (decRepr c ++ '_' :: decRepr t))

/-- Task id generated for a given optional caller name, counter value and
int(time.time()) value. -/
def mkTaskId (name : Option String) (c t : Nat) : String :=
  String.mk (idChars name c t)

/-- Reads back the counter chunk of a generated id: reverse the characters,
drop the trailing time digits and one separating underscore, and take the
counter digits.  Used only in proofs, to show ids with distinct counters
are distinct strings. -/
def decodeCounter (l : List Char) : List Char :=
  ((((l.reverse).dropWhile fun ch => ch != '_').drop 1).takeWhile
    fun ch => ch != '_').reverse

/-- Error raised synchronously out of submit_task: the executor refuses new
work after shutdown (RuntimeError re-raised to the caller on line 154). -/
inductive SubmitError where
  | runtimeErrorShutdown
deriving DecidableEq

/-- ThreadManager.submit_task (lines 109-154).  The counter is incremented
under the lock before anything can fail, and the id is derived from the new
counter value and the submission time.  The dedicated-thread lane
(use_qthread=True) registers and starts a WorkerThread with no shutdown
check; the pooled lane calls thread_pool.submit, which raises after the
executor has shut down — the exception is re-raised to the caller and no id
is returned.  Returns the caller-visible outcome together with the new
manager state. -/
def submitTask (st : ThreadManagerState) (useQThread : Bool)
    (name : Option String) (time : Nat) :
    Except SubmitError String × ThreadManagerState :=
  let c := st.counter + 1
  let tid := mkTaskId name c time
  let st1 := { st with counter := c }
  if useQThread then
    (Except.ok tid,
     { st1 with activeThreads := st1.activeThreads ++ [(tid, ⟨false⟩)] })
  else if st.poolShutdown then
    (Except.error SubmitError.runtimeErrorShutdown, st1)
  else
    (Except.ok tid,
     { st1 with activeFutures := st1.activeFutures ++ [(tid, FutureState.pending)] })

/-- Task ids issued by a sequence of submit_task calls.  Each request is
(use_qthread, task_name, int(time.time())).  The lock serializes the
counter increments, so concurrent submissions are modelled by an arbitrary
interleaving order.  A failed submission consumes a counter value but
issues no id. -/
def runSubmits : ThreadManagerState → List (Bool × Option String × Nat) → List String
  | _, [] => []
  | st, (q, nm, t) :: rest =>
      match submitTask st q nm t with
      | (Except.ok tid, st1) => tid :: runSubmits st1 rest
      | (Except.error _, st1) => runSubmits st1 rest

/-- ThreadManager.cancel_task (lines 206-237).  Dedicated lane: sets the
worker's flag (emitting the "Cancelado" status), returns True.  Pooled
lane: calls Future.cancel() and deletes the entry exactly when that
succeeds, returning its result.  Unknown id: returns False.  The
surrounding try/except converts any internal exception into False, so the
operation never raises; the model is accordingly a total function.
Returns (result, new state, emitted events). -/
def cancelTask (st : ThreadManagerState) (tid : String) :
    Bool × ThreadManagerState × List Event :=
  match st.activeThreads.lookup tid with
  | some w =>
      (true,
       { st with activeThreads :=
           st.activeThreads.map fun p =>
             if p.1 == tid then (p.1, (workerCancel tid p.2).1) else p },
       (workerCancel tid w).2)
  | none =>
      match st.activeFutures.lookup tid with
      | some fs =>
          if futureCancel fs then
            (true,
             { st with activeFutures := st.activeFutures.filter fun p => !(p.1 == tid) },
             [])
          else (false, st, [])
      | none => (false, st, [])

/-- ThreadManager.cancel_all_tasks (lines 239-249): calls cancel_task on a
snapshot of the dedicated-lane keys and then of the pooled-lane keys. -/
def cancelAllTasks (st : ThreadManagerState) : ThreadManagerState :=
  ((st.activeThreads.map Prod.fst) ++ (st.activeFutures.map Prod.fst)).foldl
    (fun s tid => (cancelTask s tid).2.1) st

/-- ThreadManager.get_active_tasks (lines 251-253): the concatenation of
the keys of the two registry dictionaries, in insertion order. -/
def getActiveTasks (st : ThreadManagerState) : List String :=
  st.activeThreads.map Prod.fst ++ st.activeFutures.map Prod.fst

/-- ThreadManager._cleanup_finished_tasks (lines 192-204), the periodic
reaper: deletes every pooled entry whose future reports done(). -/
def cleanupFinishedTasks (st : ThreadManagerState) : ThreadManagerState :=
  { st with activeFutures := st.activeFutures.filter fun p => !(futureDone p.2) }

/-- Claim predicate taken from the specification wording (not from the
source): the active-task list contains only ids whose pooled record, if
any, is not in a terminal (done) state.  Compared against getActiveTasks;
the source does not satisfy it before the reaper runs. -/
def specActiveListOnlyLive (st : ThreadManagerState) : Bool :=
  (getActiveTasks st).all fun tid =>
    match st.activeFutures.lookup tid with
    | some fs => !(futureDone fs)
    | none => true

/-- Exception escaping ThreadManager.shutdown. -/
inductive PyError where
  | typeError (msg : String)
deriving DecidableEq

/-- ThreadManager.shutdown (lines 263-291).  It stops the cleanup timer,
calls cancel_all_tasks, and then — when wait is true, a timeout was given
and pooled entries remain — executes line 282, `wait(remaining,
timeout=timeout)`.  Python name resolution binds that `wait` to the boolean
parameter of shutdown (which shadows the function imported from
concurrent.futures on line 11), so the call raises TypeError and the
exception propagates to the caller before the executor is shut down.  In
every other case the executor is shut down and the call returns. -/
def shutdownPy (wait : Bool) (timeout : Option Nat) (st : ThreadManagerState) :
    Except PyError ThreadManagerState :=
  let st1 := cancelAllTasks st
  if wait && timeout.isSome && !st1.activeFutures.isEmpty then
    Except.error (PyError.typeError "bool object is not callable")
  else
    Except.ok { st1 with poolShutdown := true }

/-- Transition labels of the pooled-lane Future lifecycle: a worker picking
the task up (set_running_or_notify_cancel succeeding, the only point at
which the callable starts executing), the callable finishing, and a
successful Future.cancel(). -/
inductive Lab where
  | pickUp
  | finishL
  | cancelL
deriving DecidableEq

/-- Single Future lifecycle transition; impossible transitions yield none.
Cancellation succeeds only from PENDING (mirroring Future.cancel and
set_running_or_notify_cancel of concurrent.futures). -/
def stepF : FutureState → Lab → Option FutureState
  | FutureState.pending, Lab.pickUp => some FutureState.running
  | FutureState.running, Lab.finishL => some FutureState.done
  | FutureState.pending, Lab.cancelL => some FutureState.cancelledF
  | _, _ => none

/-- Runs a sequence of lifecycle transitions from a state; none when some
transition is impossible. -/
def runLabels : FutureState → List Lab → Option FutureState
  | s, [] => some s
  | s, l :: ls =>
      match stepF s l with
      | some s1 => runLabels s1 ls
      | none => none

/-- Fuel-based digit rendering agrees with the Mathlib digit expansion once
the fuel covers the number. -/
theorem decDigitsAux_eq (fuel : Nat) : ∀ n, n ≤ fuel →
    decDigitsAux fuel n = ((Nat.digits 10 n).map Nat.digitChar).reverse := by
  induction fuel with
  | zero =>
      intro n hn
      interval_cases n
      simp [decDigitsAux]
  | succ f ih =>
      intro n hn
      by_cases h0 : n = 0
      · subst h0; simp [decDigitsAux]
      · have hpos : 0 < n := Nat.pos_of_ne_zero h0
        have hdiv : n / 10 ≤ f := by
          have := Nat.div_lt_self hpos (by norm_num : 1 < 10)
          omega
        rw [show decDigitsAux (f + 1) n
            = if n = 0 then [] else decDigitsAux f (n / 10) ++ [Nat.digitChar (n % 10)] from rfl]
        rw [if_neg h0, ih (n / 10) hdiv,
          Nat.digits_def' (by norm_num : (1 : Nat) < 10) hpos]
        simp [List.reverse_cons]

/-- Unfolding of decRepr away from zero. -/
theorem decRepr_eq (n : Nat) (h : n ≠ 0) :
    decRepr n = ((Nat.digits 10 n).map Nat.digitChar).reverse := by
  rw [decRepr, if_neg h]
  exact decDigitsAux_eq n n le_rfl

/-- Decimal digit characters are never the underscore separator. -/
theorem digitChar_ne_underscore (d : Nat) (h : d < 10) :
    (Nat.digitChar d != '_') = true := by
  interval_cases d <;> decide

/-- No character of a decimal rendering is an underscore. -/
theorem mem_decRepr_ne_underscore (n : Nat) :
    ∀ ch ∈ decRepr n, (ch != '_') = true := by
  by_cases h : n = 0
  · subst h
    intro ch hch
    simp [decRepr] at hch
    subst hch
    decide
  · rw [decRepr_eq n h]
    intro ch hch
    rw [List.mem_reverse] at hch
    obtain ⟨d, hd, rfl⟩ := List.mem_map.mp hch
    exact digitChar_ne_underscore d (Nat.digits_lt_base (by norm_num) hd)

/-- Nat.digitChar is injective below the base 10. -/
theorem digitChar_inj (d1 d2 : Nat) (h1 : d1 < 10) (h2 : d2 < 10) :
    Nat.digitChar d1 = Nat.digitChar d2 → d1 = d2 := by
  interval_cases d1 <;> interval_cases d2 <;> decide

/-- Mapping Nat.digitChar over lists of base-10 digits is injective. -/
theorem map_digitChar_inj : ∀ (l1 l2 : List Nat),
    (∀ d ∈ l1, d < 10) → (∀ d ∈ l2, d < 10) →
    l1.map Nat.digitChar = l2.map Nat.digitChar → l1 = l2
  | [], [], _, _, _ => rfl
  | [], _ :: _, _, _, h => by simp at h
  | _ :: _, [], _, _, h => by simp at h
  | a :: l1, b :: l2, h1, h2, h => by
      simp only [List.map_cons, List.cons.injEq] at h
      have hab := digitChar_inj a b (h1 a (List.mem_cons_self a l1))
        (h2 b (List.mem_cons_self b l2)) h.1
      subst hab
      have htl := map_digitChar_inj l1 l2
        (fun d hd => h1 d (List.mem_cons_of_mem _ hd))
        (fun d hd => h2 d (List.mem_cons_of_mem _ hd)) h.2
      rw [htl]

/-- Decimal renderings of distinct positive numbers are distinct. -/
theorem decRepr_inj_pos (m n : Nat) (hm : 0 < m) (hn : 0 < n) :
    decRepr m = decRepr n → m = n := by
  rw [decRepr_eq m (Nat.pos_iff_ne_zero.mp hm), decRepr_eq n (Nat.pos_iff_ne_zero.mp hn)]
  intro h
  have h2 := List.reverse_injective h
  have h3 := map_digitChar_inj _ _
    (fun d hd => Nat.digits_lt_base (by norm_num) hd)
    (fun d hd => Nat.digits_lt_base (by norm_num) hd) h2
  have h4 := congrArg (Nat.ofDigits 10) h3
  rwa [Nat.ofDigits_digits, Nat.ofDigits_digits] at h4

/-- dropWhile skips over a block that wholly satisfies the predicate. -/
theorem dropWhile_append_all (p : Char → Bool) :
    ∀ (xs ys : List Char), (∀ x ∈ xs, p x = true) →
    (xs ++ ys).dropWhile p = ys.dropWhile p
  | [], _, _ => rfl
  | x :: xs, ys, h => by
      have hx : p x = true := h x (List.mem_cons_self x xs)
      rw [List.cons_append, List.dropWhile_cons, if_pos hx]
      exact dropWhile_append_all p xs ys fun a ha => h a (List.mem_cons_of_mem _ ha)

/-- takeWhile keeps a leading block that wholly satisfies the predicate. -/
theorem takeWhile_append_all (p : Char → Bool) :
    ∀ (xs ys : List Char), (∀ x ∈ xs, p x = true) →
    (xs ++ ys).takeWhile p = xs ++ ys.takeWhile p
  | [], _, _ => rfl
  | x :: xs, ys, h => by
      have hx : p x = true := h x (List.mem_cons_self x xs)
      rw [List.cons_append, List.takeWhile_cons, if_pos hx,
        takeWhile_append_all p xs ys fun a ha => h a (List.mem_cons_of_mem _ ha),
        List.cons_append]

/-- decodeCounter recovers the middle underscore-free block of any string of
the shape pfx ++ "task_" ++ A ++ "_" ++ B with A and B underscore-free. -/
theorem decodeCounter_shape (pfx A B : List Char)
    (hA : ∀ ch ∈ A, (ch != '_') = true) (hB : ∀ ch ∈ B, (ch != '_') = true) :
    decodeCounter (pfx ++ 't' :: 'a' :: 's' :: 'k' :: '_' :: (A ++ '_' :: B)) = A := by
  unfold decodeCounter
  have h1 : (pfx ++ 't' :: 'a' :: 's' :: 'k' :: '_' :: (A ++ '_' :: B)).reverse
      = B.reverse ++ '_' :: (A.reverse ++ '_' :: ('k' :: 's' :: 'a' :: 't' :: pfx.reverse)) := by
    simp [List.reverse_append, List.reverse_cons, List.append_assoc]
  rw [h1, dropWhile_append_all _ _ _ (fun x hx => hB x (List.mem_reverse.mp hx)),
    List.dropWhile_cons, if_neg (by decide)]
  rw [show (('_' :: (A.reverse ++ '_' :: ('k' :: 's' :: 'a' :: 't' :: pfx.reverse))).drop 1)
      = A.reverse ++ '_' :: ('k' :: 's' :: 'a' :: 't' :: pfx.reverse) from rfl]
  rw [takeWhile_append_all _ _ _ (fun x hx => hA x (List.mem_reverse.mp hx)),
    List.takeWhile_cons, if_neg (by decide), List.append_nil, List.reverse_reverse]

/-- decodeCounter recovers the counter digits of any generated task id,
whatever the caller-supplied name and timestamp were. -/
theorem decodeCounter_idChars (name : Option String) (c t : Nat) :
    decodeCounter (idChars name c t) = decRepr c := by
  unfold idChars
  exact decodeCounter_shape _ _ _ (mem_decRepr_ne_underscore c) (mem_decRepr_ne_underscore t)

/-- Generated ids with distinct positive counters are distinct strings,
regardless of the names and timestamps involved. -/
theorem mkTaskId_counter_inj (n1 n2 : Option String) (c1 c2 t1 t2 : Nat)
    (h1 : 0 < c1) (h2 : 0 < c2)
    (h : mkTaskId n1 c1 t1 = mkTaskId n2 c2 t2) : c1 = c2 := by
  have hd : idChars n1 c1 t1 = idChars n2 c2 t2 := congrArg String.data h
  have h3 := congrArg decodeCounter hd
  rw [decodeCounter_idChars, decodeCounter_idChars] at h3
  exact decRepr_inj_pos c1 c2 h1 h2 h3

/-- Every submit_task call advances the counter by exactly one, whether or
not it issues an id. -/
theorem submitTask_counter (st : ThreadManagerState) (q : Bool)
    (nm : Option String) (t : Nat) :
    (submitTask st q nm t).2.counter = st.counter + 1 := by
  cases q <;> cases hp : st.poolShutdown <;> simp [submitTask, hp]

/-- An id issued by submit_task is the one generated from the incremented
counter and the submission time. -/
theorem submitTask_ok_id (st : ThreadManagerState) (q : Bool)
    (nm : Option String) (t : Nat) (tid : String) (st1 : ThreadManagerState)
    (h : submitTask st q nm t = (Except.ok tid, st1)) :
    tid = mkTaskId nm (st.counter + 1) t := by
  cases q <;> cases hp : st.poolShutdown <;>
    simp [submitTask, hp] at h <;> exact h.1.symm

/-- Every id issued during a run of submissions was generated from a counter
value strictly above the starting counter. -/
theorem mem_runSubmits : ∀ (reqs : List (Bool × Option String × Nat))
    (st : ThreadManagerState) (tid : String),
    tid ∈ runSubmits st reqs →
    ∃ nm c t, st.counter < c ∧ tid = mkTaskId nm c t
  | [], st, tid, h => by simp [runSubmits] at h
  | (q, nm, t) :: rest, st, tid, h => by
      rw [runSubmits] at h
      rcases hsub : submitTask st q nm t with ⟨res, st1⟩
      rw [hsub] at h
      have hctr : st1.counter = st.counter + 1 := by
        have h2 := submitTask_counter st q nm t
        rw [hsub] at h2
        exact h2
      cases res with
      | ok tid0 =>
          simp only [List.mem_cons] at h
          rcases h with h | h
          · exact ⟨nm, st.counter + 1, t, Nat.lt_succ_self _, by
              rw [h, submitTask_ok_id st q nm t tid0 st1 hsub]⟩
          · obtain ⟨nm2, c2, t2, hc2, htid⟩ := mem_runSubmits rest st1 tid h
            exact ⟨nm2, c2, t2, by omega, htid⟩
      | error e =>
          obtain ⟨nm2, c2, t2, hc2, htid⟩ := mem_runSubmits rest st1 tid h
          exact ⟨nm2, c2, t2, by omega, htid⟩

/-- C6: task ids are unique for the lifetime of the process.  Any sequence
of submit_task calls — the lock serializes concurrent callers, so an
arbitrary request list models N concurrent submissions — yields pairwise
distinct task ids, for every starting state, every mix of execution lanes,
every choice of caller-supplied names (including names containing digits
and underscores) and every timestamp sequence (including repeated
timestamps); hence an id is never reused while any record for it exists. -/
theorem C6_task_ids_nodup (st : ThreadManagerState)
    (reqs : List (Bool × Option String × Nat)) :
    (runSubmits st reqs).Nodup := by
  induction reqs generalizing st with
  | nil => simp [runSubmits]
  | cons req rest ih =>
      obtain ⟨q, nm, t⟩ := req
      rw [runSubmits]
      rcases hsub : submitTask st q nm t with ⟨res, st1⟩
      have hctr : st1.counter = st.counter + 1 := by
        have h2 := submitTask_counter st q nm t
        rw [hsub] at h2
        exact h2
      cases res with
      | error e => exact ih st1
      | ok tid0 =>
          refine List.nodup_cons.mpr ⟨?_, ih st1⟩
          intro hmem
          obtain ⟨nm2, c2, t2, hc2, htid⟩ := mem_runSubmits rest st1 tid0 hmem
          have hid : tid0 = mkTaskId nm (st.counter + 1) t :=
            submitTask_ok_id st q nm t tid0 st1 hsub
          have hce : st.counter + 1 = c2 :=
            mkTaskId_counter_inj nm nm2 (st.counter + 1) c2 t t2
              (Nat.succ_pos _) (by omega) (hid.symm.trans htid)
          omega

/-- C1 counterexample: the claim is false on the code.  A dedicated-lane
task whose cancellation flag is set when the completion check on line 53
runs, and whose callable returned normally, emits zero terminal TaskResult
events, not one; and even for an uncancelled successful run the terminal
event is not the last event for the id — the "Concluído" status emission
follows it. -/
theorem C1_counterexample :
    countCompleted (workerRunEvents "t1" true [] (Except.ok 0)) ≠ 1
    ∧ (workerRunEvents "t1" false [] (Except.ok 0)).getLast?
        = some (Event.status "t1" "Concluído") := by
  constructor
  · decide
  · rfl

/-- C1 amended: a pooled-lane execution emits exactly one terminal
TaskResult event; a dedicated-lane execution emits exactly one unless its
cancellation flag is set at the completion check and the callable returned
normally, in which case it emits none (and a pooled task cancelled before
it starts runs no callable and emits none); the terminal event is
immediately followed by one final status emission, so it is not the last
event for its id. -/
theorem C1_terminal_events (task_id : String) (c : Bool) (fe : List Event)
    (r : Except String Int) :
    countCompleted (workerRunEvents task_id c fe r)
      = countCompleted fe + cond (c && isOkB r) 0 1
    ∧ countCompleted (executeTaskEvents task_id fe r) = countCompleted fe + 1 := by
  cases r <;> cases c <;>
    simp [workerRunEvents, executeTaskEvents, countCompleted, isOkB,
      List.filter_append, List.filter_cons]

/-- Manager state with a single still-running pooled task; its Future can
no longer be cancelled. -/
def stRunning : ThreadManagerState :=
  ⟨0, false, [], [("t1", FutureState.running)]⟩

/-- C2: the code is wrong here.  shutdown(wait=True, timeout=10.0) with a
still-running pooled task reaches line 282, where the call `wait(remaining,
timeout=timeout)` resolves `wait` to shutdown's own boolean parameter — it
shadows the function imported from concurrent.futures on line 11 — so the
call raises TypeError instead of completing and releasing the pool. -/
theorem C2_shutdown_type_error :
    shutdownPy true (some 10) stRunning
      = Except.error (PyError.typeError "bool object is not callable") := by
  rfl

/-- C3 counterexample: a callable that raises an exception whose message is
empty (Python str(e) = "") ends Failed carrying the empty string as its
error, so the claimed non-empty error message does not hold on the code. -/
theorem C3_counterexample :
    ¬ (∀ tr ∈ completedResults (executeTaskEvents "t1" [] (Except.error "")),
        tr.error ≠ some "") := by
  decide

/-- C3 amended: a pooled task whose callable raises ends with exactly one
Failed TaskResult carrying the exception's message as its error (non-empty
whenever the message is non-empty, but empty for an empty message); the
exception is not propagated to any other task and the pool continues to run
every subsequent task, whose results are unaffected. -/
theorem C3_failed_result (task_id : String) (fe : List Event) (e : String)
    (rest : List (String × List Event × Except String Int)) :
    completedResults (runSeq ((task_id, fe, Except.error e) :: rest))
      = (completedResults fe ++ [⟨task_id, false, none, some e⟩])
        ++ completedResults (runSeq rest) := by
  simp [runSeq, executeTaskEvents, completedResults, List.filterMap_append,
    List.filterMap_cons]

/-- C10 counterexample: the claim's parenthetical is false on the code.
For a dedicated-lane worker whose cancellation flag is set, status events
for its task id are still emitted: the exception path (lines 59-60) emits
an "Erro: ..." status without consulting the flag, and cancel() itself
(line 75) emits a "Cancelado" status right after setting the flag. -/
theorem C10_counterexample :
    Event.status "t1" "Erro: boom" ∈ workerRunEvents "t1" true [] (Except.error "boom")
    ∧ (workerCancel "t1" ⟨false⟩).2 = [Event.status "t1" "Cancelado"] := by
  constructor
  · decide
  · rfl

/-- C10 amended: every invocation of the two injected callbacks on a
dedicated-lane worker whose cancellation flag is set is silently discarded
(emits nothing); however the cancel call itself emits one "Cancelado"
status event, and a callable that raises still causes completion and
"Erro" status emissions for the id even when the flag is set. -/
theorem C10_callbacks_discarded (task_id : String) (p : Int) (s : String) :
    progressCallback task_id ⟨true⟩ p = []
    ∧ statusCallback task_id ⟨true⟩ s = [] := by
  exact ⟨rfl, rfl⟩

/-- Manager state after a completed shutdown: the executor's shutdown bit is
set and the registries are empty. -/
def stShutdown : ThreadManagerState := ⟨0, true, [], []⟩

/-- C4 counterexample: the claim is false on the code.  After shutdown, a
submission in the dedicated-thread lane (use_qthread=True) does not raise:
submit_task has no shutdown check on that path, so it starts the worker and
returns a fresh task id to the caller. -/
theorem C4_counterexample :
    (submitTask stShutdown true none 0).1 = Except.ok (mkTaskId none 1 0) := by
  rfl

/-- C4 amended: after shutdown, a pooled-lane submit raises the executor's
shutdown error synchronously (re-raised to the caller on line 154) and
issues no task id, but a dedicated-thread-lane submit still succeeds and
issues a task id, for every post-shutdown registry content, name and
timestamp. -/
theorem C4_submit_after_shutdown (counter : Nat)
    (th : List (String × WorkerThread)) (fu : List (String × FutureState))
    (name : Option String) (t : Nat) :
    (submitTask ⟨counter, true, th, fu⟩ false name t).1
      = Except.error SubmitError.runtimeErrorShutdown
    ∧ (submitTask ⟨counter, true, th, fu⟩ true name t).1
      = Except.ok (mkTaskId name (counter + 1) t) := by
  exact ⟨rfl, rfl⟩

/-- C5 counterexample: the claim is false on the code.  With no
caller-supplied keyword arguments, the dictionary both lanes pass to the
callable holds exactly the two injected callbacks and nothing that exposes
the cancellation flag: no read-only cancellation handle is ever passed to
the work. -/
theorem C5_counterexample :
    ¬ (∃ kv ∈ injectCallbacks (callerKwargs []), kv.2 = KwVal.cancelFlag) := by
  decide

/-- Every caller-supplied keyword argument carries an opaque caller value. -/
theorem mem_callerKwargs (ks : List String) (kv : String × KwVal) :
    kv ∈ callerKwargs ks → kv.2 = KwVal.callerSupplied := by
  intro h
  obtain ⟨k, _, rfl⟩ := List.mem_map.mp h
  rfl

/-- Lookup skips a prefix in which the key does not occur. -/
theorem lookup_append_of_none {α β : Type} [BEq α] :
    ∀ (l1 l2 : List (α × β)) (a : α), l1.lookup a = none →
    (l1 ++ l2).lookup a = l2.lookup a
  | [], _, _, _ => rfl
  | (k, v) :: l1, l2, a, h => by
      simp only [List.lookup] at h
      cases hak : a == k with
      | true => rw [hak] at h; cases h
      | false =>
          rw [hak] at h
          rw [List.cons_append]
          simp only [List.lookup, hak]
          exact lookup_append_of_none l1 l2 a h

/-- Membership in the first injection step comes from the original
dictionary or is the injected progress pair. -/
theorem mem_injectProgress (kw : List (String × KwVal)) (kv : String × KwVal) :
    kv ∈ injectProgress kw →
    kv ∈ kw ∨ kv = ("progress_callback", KwVal.progressCb) := by
  unfold injectProgress
  split_ifs with h
  · exact fun hm => Or.inl hm
  · intro hm
    rcases List.mem_append.mp hm with hm | hm
    · exact Or.inl hm
    · right; simpa using hm

/-- Membership in the second injection step comes from its input or is the
injected status pair. -/
theorem mem_injectStatus (kw : List (String × KwVal)) (kv : String × KwVal) :
    kv ∈ injectStatus kw →
    kv ∈ kw ∨ kv = ("status_callback", KwVal.statusCb) := by
  unfold injectStatus
  split_ifs with h
  · exact fun hm => Or.inl hm
  · intro hm
    rcases List.mem_append.mp hm with hm | hm
    · exact Or.inl hm
    · right; simpa using hm

/-- The second injection step preserves existing entries. -/
theorem subset_injectStatus (kw : List (String × KwVal)) (kv : String × KwVal) :
    kv ∈ kw → kv ∈ injectStatus kw := by
  unfold injectStatus
  split_ifs with h
  · exact fun hm => hm
  · exact fun hm => List.mem_append_left _ hm

/-- C5 amended: both execution lanes invoke the callable with the progress
callback and the status callback injected into its keyword arguments
whenever the caller did not already supply them, but no cancellation flag
is ever among the callable's arguments, in either lane. -/
theorem C5_callback_injection (ks : List String) :
    (∀ kv ∈ injectCallbacks (callerKwargs ks), kv.2 ≠ KwVal.cancelFlag)
    ∧ ((callerKwargs ks).lookup "progress_callback" = none →
        ("progress_callback", KwVal.progressCb) ∈ injectCallbacks (callerKwargs ks))
    ∧ ((callerKwargs ks).lookup "status_callback" = none →
        ("status_callback", KwVal.statusCb) ∈ injectCallbacks (callerKwargs ks)) := by
  refine ⟨?_, ?_, ?_⟩
  · intro kv hkv
    unfold injectCallbacks at hkv
    rcases mem_injectStatus _ kv hkv with h | h
    · rcases mem_injectProgress _ kv h with h2 | h2
      · rw [mem_callerKwargs ks kv h2]; decide
      · rw [h2]; decide
    · rw [h]; decide
  · intro hnp
    unfold injectCallbacks
    apply subset_injectStatus
    unfold injectProgress
    rw [hnp]
    simp
  · intro hns
    unfold injectCallbacks injectStatus
    have hlk : (injectProgress (callerKwargs ks)).lookup "status_callback" = none := by
      unfold injectProgress
      split_ifs with h1
      · exact hns
      · rw [lookup_append_of_none _ _ _ hns]
        rfl
    rw [hlk]
    simp

/-- C5 witness: concrete instance of the amended theorem at the empty
caller-supplied keyword dictionary. -/
theorem C5_callback_injection_witness :
    ("progress_callback", KwVal.progressCb) ∈ injectCallbacks (callerKwargs []) :=
  (C5_callback_injection []).2.1 rfl

/-- C7: cancel_task returns True exactly when it could deliver a
cancellation signal to a live registry record — a dedicated-lane worker
(whose flag it sets) or a pooled entry whose Future.cancel() succeeds — and
in particular returns False, without raising (the try/except on lines
216-237 turns any internal exception into False, and the model is a total
function), for an unknown or already-reaped id. -/
theorem C7_cancel_result (st : ThreadManagerState) (tid : String) :
    ((cancelTask st tid).1 = true ↔
      ((st.activeThreads.lookup tid).isSome = true
        ∨ ∃ fs, st.activeFutures.lookup tid = some fs ∧ futureCancel fs = true))
    ∧ (st.activeThreads.lookup tid = none → st.activeFutures.lookup tid = none →
        (cancelTask st tid).1 = false) := by
  constructor
  · rcases h1 : st.activeThreads.lookup tid with _ | w
    · rcases h2 : st.activeFutures.lookup tid with _ | fs
      · simp [cancelTask, h1, h2]
      · by_cases hc : futureCancel fs = true
        · simp [cancelTask, h1, h2, hc]
        · simp [cancelTask, h1, h2, hc]
    · simp [cancelTask, h1]
  · intro h1 h2
    simp [cancelTask, h1, h2]

/-- Manager state with one live dedicated-lane worker. -/
def stThread : ThreadManagerState := ⟨0, false, [("a", ⟨false⟩)], []⟩

/-- C7 witness: cancelling the live worker record "a" returns True. -/
theorem C7_cancel_result_witness : (cancelTask stThread "a").1 = true :=
  (C7_cancel_result stThread "a").1.mpr (Or.inl (by rfl))

/-- From a CANCELLED future no further lifecycle transition is possible:
any valid continuation is empty. -/
theorem runLabels_cancelled : ∀ (ls : List Lab) (s : FutureState),
    runLabels FutureState.cancelledF ls = some s →
    ls = [] ∧ s = FutureState.cancelledF := by
  intro ls s h
  cases ls with
  | nil =>
      refine ⟨rfl, ?_⟩
      simpa [runLabels] using h.symm
  | cons l ls => cases l <;> simp [runLabels, stepF] at h

/-- A valid trace from any non-PENDING state never contains a successful
cancellation transition. -/
theorem runLabels_no_cancel : ∀ (ls : List Lab) (s s1 : FutureState),
    s ≠ FutureState.pending → runLabels s ls = some s1 → Lab.cancelL ∉ ls := by
  intro ls
  induction ls with
  | nil => intro s s1 _ _; simp
  | cons l ls ih =>
      intro s s1 hs h
      cases s <;> cases l <;> simp only [runLabels, stepF] at h <;>
        first
          | exact absurd rfl hs
          | cases h
          | (intro hmem
             rcases List.mem_cons.mp hmem with h2 | h2
             · cases h2
             · exact absurd h2 (ih _ s1 (by intro hc; cases hc) h))

/-- C8: a pooled task successfully cancelled before a worker picks it up
never reaches the RUNNING state and its callable is never executed.  In the
Future lifecycle model a successful Future.cancel() (the cancelL
transition, which cancel_task performs on a pending entry) is only possible
from PENDING, so any valid trace from PENDING that contains it is exactly
the direct PENDING-to-CANCELLED step: the trace contains no pickUp
transition — the only transition that enters RUNNING and starts the
callable — and ends CANCELLED. -/
theorem C8_cancel_before_start (tr : List Lab) (s : FutureState)
    (hrun : runLabels FutureState.pending tr = some s) (hmem : Lab.cancelL ∈ tr) :
    tr = [Lab.cancelL] ∧ s = FutureState.cancelledF ∧ Lab.pickUp ∉ tr := by
  cases tr with
  | nil => cases hmem
  | cons l ls =>
      cases l with
      | pickUp =>
          simp only [runLabels, stepF] at hrun
          have hnc := runLabels_no_cancel ls FutureState.running s
            (by intro hc; cases hc) hrun
          rcases List.mem_cons.mp hmem with h | h
          · cases h
          · exact absurd h hnc
      | finishL =>
          simp only [runLabels, stepF] at hrun
          cases hrun
      | cancelL =>
          simp only [runLabels, stepF] at hrun
          obtain ⟨hls, hsv⟩ := runLabels_cancelled ls s hrun
          subst hls
          exact ⟨rfl, hsv, by decide⟩

/-- C8 witness: the theorem applied to the concrete one-step trace that
cancels a pending future. -/
theorem C8_cancel_before_start_witness :
    [Lab.cancelL] = [Lab.cancelL] ∧ FutureState.cancelledF = FutureState.cancelledF
    ∧ Lab.pickUp ∉ [Lab.cancelL] :=
  C8_cancel_before_start [Lab.cancelL] FutureState.cancelledF (by rfl) (by decide)

/-- A successful lookup pins a pair of the association list. -/
theorem lookup_mem {α β : Type} [BEq α] [LawfulBEq α] :
    ∀ (l : List (α × β)) (a : α) (b : β), l.lookup a = some b → (a, b) ∈ l
  | [], _, _, h => by cases h
  | (k, v) :: l, a, b, h => by
      simp only [List.lookup] at h
      cases hak : a == k with
      | true =>
          rw [hak] at h
          have hv : v = b := by simpa using h
          have hk : a = k := eq_of_beq hak
          subst hv; subst hk
          exact List.mem_cons_self _ _
      | false =>
          rw [hak] at h
          exact List.mem_cons_of_mem _ (lookup_mem l a b h)

/-- Manager state with one finished-but-unreaped pooled task. -/
def stDone : ThreadManagerState := ⟨0, false, [], [("t1", FutureState.done)]⟩

/-- C9 counterexample: the claim is false on the code.  A pooled task whose
future is already FINISHED stays in active_futures until the periodic
5-second sweep runs, and get_active_tasks lists it, so the active list does
contain a terminal, not-yet-reaped task id. -/
theorem C9_counterexample : specActiveListOnlyLive stDone = false := by
  rfl

/-- C9 amended: get_active_tasks returns all ids present in the two
registry maps — including pooled tasks that already reached a terminal
state but have not yet been removed by the periodic cleanup — and only
after _cleanup_finished_tasks runs does the pooled part of the registry
contain no done future. -/
theorem C9_active_sweep (st : ThreadManagerState) (tid : String) (fs : FutureState) :
    getActiveTasks st = st.activeThreads.map Prod.fst ++ st.activeFutures.map Prod.fst
    ∧ ((cleanupFinishedTasks st).activeFutures.lookup tid = some fs →
        futureDone fs = false) := by
  refine ⟨rfl, ?_⟩
  intro h
  have hmem := lookup_mem _ tid fs h
  have hp := List.of_mem_filter hmem
  simpa using hp

/-- C9 witness: the amended theorem applied to the still-running pooled
entry of stRunning, which survives the sweep. -/
theorem C9_active_sweep_witness : futureDone FutureState.running = false :=
  (C9_active_sweep stRunning "t1" FutureState.running).2 (by rfl)
